import Mathlib

/-!
Shallow embedding of the core of the `openrouterai` MCP server
(model-reference parsing, context-window truncation, conversation store,
model-catalog cache, and the resilient OpenRouter API client), together
with theorems settling the specification claims about it.

Conventions used throughout this development:
* JavaScript `undefined` for an optional value is modelled as `Option.none`.
* Timestamps (`Date.now()`, ISO-8601 strings produced by
  `new Date().toISOString()`) are modelled as `Int` milliseconds; ISO
  strings have millisecond precision and are order-isomorphic to their
  epoch-millisecond value, so two calls within the same millisecond yield
  the *same* timestamp value, exactly as the strings would be equal.
* `await setTimeout(ms)` sleeps are recorded as explicit effect values or
  returned sleep-duration lists instead of real time passing.
* Fallible code returns `Except`/`Option`.
-/

set_option autoImplicit false

namespace OpenRouterAI

/-! ## Model Reference Parser (src/model-utils.ts) -/

/-- The two supported routing suffixes (`src/types.ts` `ModelSuffix`). -/
inductive ModelSuffix where
  | floor
  | nitro
  deriving DecidableEq, Repr

/-- String form of a suffix, as it appears in a model string. -/
def ModelSuffix.str : ModelSuffix → String
  | .floor => "floor"
  | .nitro => "nitro"

/-- Source: `ParsedModel` from `src/types.ts`: base model, optional suffix, original string. -/
structure ParsedModel where
  baseModel : String
  suffix : Option ModelSuffix := none
  fullModel : String
  deriving DecidableEq, Repr

/-- The loop body of `parseModel` (src/model-utils.ts:18-37): try each suffix
in order, returning on the first match; if none matches, return the
suffix-free parse. -/
def parseModelGo (modelString : String) : List ModelSuffix → ParsedModel
  | [] =>
    { baseModel := modelString, fullModel := modelString }
  | sfx :: rest =>
    let suffixPattern := ":" ++ sfx.str
    if modelString.endsWith suffixPattern then
      { baseModel := modelString.dropRight suffixPattern.length
        suffix := some sfx
        fullModel := modelString }
    else
      parseModelGo modelString rest

/-- Source: `parseModel` (src/model-utils.ts:18-37): iterates over the suffix list
`['floor', 'nitro']`. -/
def parseModel (modelString : String) : ParsedModel :=
  parseModelGo modelString [.floor, .nitro]

/-- Restatement of the *specification's words* for the parser (spec §4.4 /
claim C8), to be compared with the source-derived `parseModel`:
"Checks `modelString` for a trailing `:floor` or `:nitro`; if present,
`baseModel` is the string with the suffix stripped, `suffix` is set,
`fullModel` is the original. If absent, `baseModel == fullModel` and
`suffix` is unset." -/
def parseModelSpec (s : String) : ParsedModel :=
  if s.endsWith ":floor" then
    { baseModel := s.dropRight 6, suffix := some .floor, fullModel := s }
  else if s.endsWith ":nitro" then
    { baseModel := s.dropRight 6, suffix := some .nitro, fullModel := s }
  else
    { baseModel := s, suffix := none, fullModel := s }

/-! ## Token estimation and context-window truncation
(src/tool-handlers/chat-completion.ts) -/

/-- A chat message role. -/
inductive Role where
  | system
  | user
  | assistant
  | tool
  deriving DecidableEq, Repr

/-- Source: `ChatCompletionMessage` (src/tool-handlers/chat-completion.ts): role plus content. -/
structure ChatCompletionMessage where
  role : Role
  content : String
  deriving DecidableEq, Repr

/-- Source: `estimateTokenCount` (src/tool-handlers/chat-completion.ts:276-280):
`Math.ceil(text.length / 4)`. -/
def estimateTokenCount (text : String) : Nat :=
  (text.length + 3) / 4

/-- The backward walk of `truncateMessagesToFit`
(src/tool-handlers/chat-completion.ts:296-303): the messages are visited
from the most recent backward (`rev` is the message list reversed); each
visited message is `unshift`ed (i.e. consed) onto the accumulator unless
adding its tokens would exceed `maxTokens`, at which point the loop breaks. -/
def truncateWalk (maxTokens : Nat) :
    List ChatCompletionMessage → List ChatCompletionMessage → Nat →
    List ChatCompletionMessage
  | [], truncated, _ => truncated
  | m :: rev, truncated, currentTokenCount =>
    let messageTokens := estimateTokenCount m.content
    if currentTokenCount + messageTokens > maxTokens then truncated
    else truncateWalk maxTokens rev (m :: truncated) (currentTokenCount + messageTokens)

/-- Source: `truncateMessagesToFit` (src/tool-handlers/chat-completion.ts:283-306):
if the first message has role `system` it is pushed first and its token
cost counted, then the remaining budget is filled walking from the last
message backward, each kept message being `unshift`ed in front of the
accumulated result (which therefore ends up *in front of* the previously
pushed system message). -/
def truncateMessagesToFit (messages : List ChatCompletionMessage) (maxTokens : Nat) :
    List ChatCompletionMessage :=
  match messages with
  | m0 :: _ =>
    if m0.role = .system then
      truncateWalk maxTokens messages.reverse [m0] (estimateTokenCount m0.content)
    else
      truncateWalk maxTokens messages.reverse [] 0
  | [] => truncateWalk maxTokens [] [] 0

/-! ## Conversation store (src/conversation.ts, src/conversation-manager.ts) -/

/-- A JSON-ish value, used for request bodies, `additionalParams` entries
(`Record<string, string | number | boolean>`) and conversation metadata.
JavaScript numbers are passed through the client opaquely, so `Int`
suffices for every claim. -/
inductive JsValue where
  | str (s : String)
  | num (n : Int)
  | bool (b : Bool)
  | arr (elems : List JsValue)
  | obj (fields : List (String × JsValue))

/-- Source: `ConversationMessage` (src/conversation.ts:4-10). The timestamp is an
ISO-8601 string in the source, modelled as epoch milliseconds (see header). -/
structure ConversationMessage where
  role : Role
  content : String
  timestamp : Option Int := none
  toolCallId : Option String := none
  toolName : Option String := none
  deriving DecidableEq, Repr

/-- Source: `Conversation` (src/conversation.ts:13-19). `metadata` is an arbitrary
record, irrelevant to every claim. -/
structure Conversation where
  id : String
  history : List ConversationMessage
  createdAt : Int
  lastUpdatedAt : Int
  metadata : List (String × JsValue) := []

/-- The `ConversationManager`'s `Map<string, Conversation>` modelled as an
association list in insertion order (`Map` preserves insertion order). -/
abbrev ConversationStore := List Conversation

/-- Source: `ConversationManager.createConversation` (src/conversation-manager.ts:20-32).
`randomUUID()` is modelled by the caller-supplied fresh `id`;
`new Date().toISOString()` by the clock reading `now`. -/
def createConversation (st : ConversationStore) (id : String)
    (initialMessages : Option (List ConversationMessage))
    (metadata : Option (List (String × JsValue))) (now : Int) :
    Conversation × ConversationStore :=
  let newConversation : Conversation :=
    { id := id
      history := initialMessages.getD []
      createdAt := now
      lastUpdatedAt := now
      metadata := metadata.getD [] }
  (newConversation, st ++ [newConversation])

/-- Source: `ConversationManager.getConversation` (src/conversation-manager.ts:34-36). -/
def getConversation (st : ConversationStore) (id : String) : Option Conversation :=
  st.find? (fun c => c.id = id)

/-- Source: `ConversationManager.addMessageToConversation`
(src/conversation-manager.ts:38-47): look the conversation up; if present,
push the message, set `lastUpdatedAt` to `new Date().toISOString()`
(modelled by the clock reading `now`) and re-store it; otherwise return
`undefined` without mutation. -/
def addMessageToConversation (st : ConversationStore) (id : String)
    (message : ConversationMessage) (now : Int) :
    Option Conversation × ConversationStore :=
  match st.find? (fun c => c.id = id) with
  | none => (none, st)
  | some conversation =>
    let updated : Conversation :=
      { conversation with
          history := conversation.history ++ [message]
          lastUpdatedAt := now }
    (some updated, st.map (fun c => if c.id = id then updated else c))

/-- Source: `ConversationManager.deleteConversation` (src/conversation-manager.ts:60-62). -/
def deleteConversation (st : ConversationStore) (id : String) :
    Bool × ConversationStore :=
  (st.any (fun c => c.id = id), st.filter (fun c => ¬ c.id = id))

/-! ## Model catalog cache (`ModelCache`, src/index.ts:853-895) -/

/-- Field `pricing` of an `OpenRouterModel` (src/index.ts:826-830). -/
structure ModelPricing where
  prompt : String
  completion : String
  unit : Int
  deriving DecidableEq, Repr

/-- Source: `OpenRouterModel` (src/index.ts:821-841). The optional `top_provider`
and `capabilities` sub-records are not consulted by any claim and are
omitted. -/
structure OpenRouterModel where
  id : String
  name : String
  description : Option String := none
  context_length : Int
  pricing : ModelPricing
  deriving DecidableEq, Repr

/-- Source: `CachedModelResponse` (src/index.ts:848-850): the data plus the
`timestamp` recorded when it was fetched. -/
structure CachedModelResponse where
  data : List OpenRouterModel
  timestamp : Int
  deriving DecidableEq, Repr

/-- The `ModelCache`'s only mutable field, `cachedModels` (src/index.ts:855). -/
abbrev ModelCacheState := Option CachedModelResponse

/-- Source: `cacheExpiry` (src/index.ts:856): one hour in milliseconds. -/
def cacheExpiry : Int := 3600000

/-- Source: `ModelCache.validateCache` (src/index.ts:867-870). -/
def validateCache (st : ModelCacheState) (now : Int) : Bool :=
  match st with
  | none => false
  | some cachedModels => decide (now - cachedModels.timestamp ≤ cacheExpiry)

/-- Source: `ModelCache.setCachedModels` (src/index.ts:872-874). -/
def setCachedModels (_st : ModelCacheState) (models : CachedModelResponse) :
    ModelCacheState :=
  some models

/-- Source: `ModelCache.getCachedModels` (src/index.ts:876-878). -/
def getCachedModels (st : ModelCacheState) (now : Int) : Option CachedModelResponse :=
  if validateCache st now then st else none

/-- Source: `ModelCache.clearCache` (src/index.ts:880-882). -/
def clearCache (_st : ModelCacheState) : ModelCacheState :=
  none

/-- Source: `ModelCache.validateModel` (src/index.ts:884-888). -/
def validateModel (st : ModelCacheState) (now : Int) (model : String) : Bool :=
  match getCachedModels st now with
  | none => false
  | some models => models.data.any (fun m => m.id = model)

/-- Source: `ModelCache.getModelInfo` (src/index.ts:890-894). -/
def getModelInfo (st : ModelCacheState) (now : Int) (model : String) :
    Option OpenRouterModel :=
  match getCachedModels st now with
  | none => none
  | some models => models.data.find? (fun m => m.id = model)

/-! ## Resilient API client (src/openrouter-api.ts) -/

/-- Source: `RateLimitState` (src/openrouter-api.ts:7-11). -/
structure RateLimitState where
  remaining : Int
  reset : Int
  total : Int
  deriving DecidableEq, Repr

/-- The rate-limit response headers `x-ratelimit-remaining`,
`x-ratelimit-reset`, `x-ratelimit-limit`, each absent or an integer
(`parseInt` of well-formed header text). -/
structure RateLimitHeaders where
  remaining : Option Int := none
  reset : Option Int := none
  limit : Option Int := none
  deriving DecidableEq, Repr

/-- The response interceptor's success handler (src/openrouter-api.ts:37-49):
parse the three headers with fallbacks `'50'`, `'60'`, `'50'` and replace
the tracked `rateLimit` state, with `reset = Date.now() + reset * 1000`. -/
def interceptorOnSuccess (headers : RateLimitHeaders) (now : Int) : RateLimitState :=
  { remaining := headers.remaining.getD 50
    reset := now + headers.reset.getD 60 * 1000
    total := headers.limit.getD 50 }

/-- One scripted response of a mocked upstream: either a success carrying
rate-limit headers, or an HTTP error with a status and an optional
`retry-after` header. -/
inductive UpstreamResponse where
  | success (headers : RateLimitHeaders)
  | failure (status : Int) (retryAfter : Option Int)
  deriving DecidableEq, Repr

/-- The observable outcome of one client request after the interceptor ran:
success (with the headers seen), a propagated HTTP error, or exhaustion of
the mocked upstream's script (only reachable when every scripted response
was a 429). -/
inductive RequestOutcome where
  | ok (headers : RateLimitHeaders)
  | error (status : Int)
  | exhausted
  deriving DecidableEq, Repr

/-- Trace of one client request through the response interceptor:
the sleeps performed (ms), the number of upstream attempts consumed, and
the final outcome. -/
structure InterceptorRun where
  sleeps : List Int
  attempts : Nat
  outcome : RequestOutcome
  deriving DecidableEq, Repr

/-- The response interceptor's error handler (src/openrouter-api.ts:50-58)
run against a scripted upstream: a success resolves immediately; on a 429
the client sleeps `parseInt(retry-after || '60') * 1000` ms and re-issues
the same request via `this.axiosInstance.request(error.config!)` — which
dispatches through this very interceptor again; any other error is
re-thrown. -/
def runInterceptor : List UpstreamResponse → InterceptorRun
  | [] => { sleeps := [], attempts := 0, outcome := .exhausted }
  | .success headers :: _ =>
    { sleeps := [], attempts := 1, outcome := .ok headers }
  | .failure status retryAfter :: rest =>
    if status = 429 then
      let resetAfter := retryAfter.getD 60
      let tail := runInterceptor rest
      { sleeps := resetAfter * 1000 :: tail.sleeps
        attempts := tail.attempts + 1
        outcome := tail.outcome }
    else
      { sleeps := [], attempts := 1, outcome := .error status }

/-- The rate-limit check guarding `fetchModels` (src/openrouter-api.ts:63-67)
and `fetchModelEndpoints` (src/openrouter-api.ts:258-262): if
`remaining <= 0 && Date.now() < reset`, sleep `reset - Date.now()` ms. -/
def rateLimitWait (rl : RateLimitState) (now : Int) : Option Int :=
  if rl.remaining ≤ 0 ∧ now < rl.reset then some (rl.reset - now) else none

/-- An observable effect of a client method: an artificial sleep or an HTTP
request to the OpenRouter API. -/
inductive Effect where
  | sleep (ms : Int)
  | httpGet (path : String)
  | httpPost (path : String) (body : List (String × JsValue))

/-- The sleep effects produced by the rate-limit check. -/
def waitEffects (rl : RateLimitState) (now : Int) : List Effect :=
  match rateLimitWait rl now with
  | some w => [.sleep w]
  | none => []

/-- Effects of `fetchModels` (src/openrouter-api.ts:62-84) up to and
including its first upstream request: the optional rate-limit sleep, then
`GET /models`. (The retry tail is modelled by `retryLoop` below.) -/
def fetchModelsFirstEffects (rl : RateLimitState) (now : Int) : List Effect :=
  waitEffects rl now ++ [.httpGet "/models"]

/-- Source: `RETRY_DELAYS` (src/openrouter-api.ts:13): exponential backoff delays in ms. -/
def RETRY_DELAYS : List Int := [1000, 2000, 4000]

/-- The retry loop of `fetchModels` / `fetchModelEndpoints`
(src/openrouter-api.ts:70-81 and 271-279): attempt `i`; on success return;
on failure, if the delay schedule is exhausted (`i === RETRY_DELAYS.length`)
re-throw, otherwise sleep `RETRY_DELAYS[i]` and try again. `outcomes i`
scripts the result of attempt `i`; the returned list records the sleeps. -/
def retryLoop {E A : Type} (delays : List Int) (outcomes : Nat → Except E A)
    (i : Nat) : List Int × Except E A :=
  match outcomes i with
  | .ok v => ([], .ok v)
  | .error e =>
    match delays with
    | [] => ([], .error e)
    | d :: ds =>
      let (sleeps, r) := retryLoop ds outcomes (i + 1)
      (d :: sleeps, r)

/-- Source: `fetchModels` (src/openrouter-api.ts:62-84) beyond the rate-limit check:
run the retry loop over the scripted attempt outcomes; a successful body is
paired with `timestamp: Date.now()`, the clock reading at the success
(`successTime`). -/
def fetchModels {E : Type} (outcomes : Nat → Except E (List OpenRouterModel))
    (successTime : Int) : List Int × Except E (List OpenRouterModel × Int) :=
  let (sleeps, r) := retryLoop RETRY_DELAYS outcomes 0
  (sleeps, r.map (fun data => (data, successTime)))

/-- The splitting loop of JavaScript `String.prototype.split` with a
single-character separator: walk the characters, cutting a field at each
separator; empty fields are kept and the empty string yields `[""]`.
(Defined structurally over the character list so that it computes by
reduction; Lean's own `String.splitOn` has the same behaviour but is
defined by well-founded recursion.) -/
def jsSplitGo (sep : Char) : List Char → List Char → List String
  | [], acc => [String.mk acc.reverse]
  | c :: cs, acc =>
    if c = sep then String.mk acc.reverse :: jsSplitGo sep cs []
    else jsSplitGo sep cs (c :: acc)

/-- JavaScript `s.split(sep)` for a one-character separator. -/
def jsSplit (s : String) (sep : Char) : List String :=
  jsSplitGo sep s.toList []

/-- The model-format validation of `fetchModelEndpoints`
(src/openrouter-api.ts:264-268): `const [author, slug] = model.split('/', 2)`
takes the first two `'/'`-separated fields; `if (!author || !slug) throw`.
A missing field (`undefined`) and an empty field (`""`) are both falsy and
take the same branch, so both are modelled by `""`. -/
def fetchModelEndpointsCheck (model : String) : Except String (String × String) :=
  let parts := jsSplit model '/'
  let author := parts.getD 0 ""
  let slug := parts.getD 1 ""
  if author = "" ∨ slug = "" then
    .error ("Invalid model format. Expected author/slug, got " ++ model)
  else
    .ok (author, slug)

/-- Effects of `fetchModelEndpoints` (src/openrouter-api.ts:257-282) up to
and including its first upstream request, paired with the thrown message if
validation fails: the rate-limit sleep happens first (lines 258-262), then
the format check (lines 264-268), and only then `GET
/models/{author}/{slug}/endpoints`. -/
def fetchModelEndpointsFirstEffects (rl : RateLimitState) (now : Int)
    (model : String) : List Effect × Option String :=
  match fetchModelEndpointsCheck model with
  | .error msg => (waitEffects rl now, some msg)
  | .ok (author, slug) =>
    (waitEffects rl now ++ [.httpGet ("/models/" ++ author ++ "/" ++ slug ++ "/endpoints")],
     none)

/-! ## Request-body construction (src/openrouter-api.ts:86-255) -/

/-- JavaScript property assignment on an object literal, in insertion
order: overwrite in place if the key exists, else append. `Object.assign`
folds this over the source's entries. -/
def setField (b : List (String × JsValue)) (k : String) (v : JsValue) :
    List (String × JsValue) :=
  if b.any (fun kv => kv.1 = k) then
    b.map (fun kv => if kv.1 = k then (k, v) else kv)
  else
    b ++ [(k, v)]

/-- Field lookup on a JS object modelled as an insertion-ordered list. -/
def lookupField (b : List (String × JsValue)) (k : String) : Option JsValue :=
  (b.find? (fun kv => kv.1 = k)).map (fun kv => kv.2)

/-- String form of a message role, as serialized in a request body. -/
def Role.str : Role → String
  | .system => "system"
  | .user => "user"
  | .assistant => "assistant"
  | .tool => "tool"

/-- A chat message serialized into a request body. -/
def messageJson (m : ChatCompletionMessage) : JsValue :=
  .obj [("role", .str m.role.str), ("content", .str m.content)]

/-- Source: `ProviderConfig` (src/types.ts:24-42). -/
structure ProviderConfig where
  quantizations : Option (List String) := none
  ignore : Option (List String) := none
  sort : Option String := none
  order : Option (List String) := none
  require_parameters : Option Bool := none
  data_collection : Option String := none
  allow_fallbacks : Option Bool := none

/-- The `providerConfig` object built by `chatCompletion`
(src/openrouter-api.ts:138-163), field by field in source order. The JS
truthiness tests coincide with definedness here: arrays are always truthy
and the string-typed fields range over non-empty literals. -/
def providerConfigJson (pc : ProviderConfig) : JsValue :=
  let fields : List (String × JsValue) := []
  let fields := match pc.quantizations with
    | some qs => fields ++ [("quantizations", .arr (qs.map .str))]
    | none => fields
  let fields := match pc.ignore with
    | some igs => fields ++ [("ignore", .arr (igs.map .str))]
    | none => fields
  let fields := match pc.sort with
    | some s => fields ++ [("sort", .str s)]
    | none => fields
  let fields := match pc.order with
    | some os => fields ++ [("order", .arr (os.map .str))]
    | none => fields
  let fields := match pc.require_parameters with
    | some rp => fields ++ [("require_parameters", .bool rp)]
    | none => fields
  let fields := match pc.data_collection with
    | some dc => fields ++ [("data_collection", .str dc)]
    | none => fields
  let fields := match pc.allow_fallbacks with
    | some af => fields ++ [("allow_fallbacks", .bool af)]
    | none => fields
  .obj fields

/-- The parameters of `OpenRouterAPIClient.chatCompletion`
(src/openrouter-api.ts:86-97). `reasoning` ranges over
`'none' | 'low' | 'medium' | 'high'` or is absent. -/
structure ChatCompletionParams where
  model : String
  messages : List ChatCompletionMessage
  temperature : Option Int := none
  max_tokens : Option Int := none
  seed : Option Int := none
  providers : Option (List String) := none
  provider : Option ProviderConfig := none
  reasoning : Option String := none
  include_reasoning : Option Bool := none
  additionalParams : Option (List (String × JsValue)) := none

/-- The reasoning object computed by `chatCompletion`
(src/openrouter-api.ts:104-119): `{enabled: false}` when `reasoning` is
`'none'`; otherwise `{effort, enabled: true}` where `effort` is
`params.reasoning` when it is defined and one of `low`/`medium`/`high`,
and `'medium'` otherwise. -/
def computedReasoning (reasoning : Option String) : JsValue :=
  if reasoning = some "none" then
    .obj [("enabled", .bool false)]
  else
    let effortLevel := match reasoning with
      | some r => if ["low", "medium", "high"].contains r then r else "medium"
      | none => "medium"
    .obj [("effort", .str effortLevel), ("enabled", .bool true)]

/-- The `if (params.x !== undefined) requestBody.x = ...;` pattern used for
every optional scalar parameter (src/openrouter-api.ts:122-135 and
213-221): set the field only when the parameter is provided. -/
def optField {α : Type} (requestBody : List (String × JsValue)) (o : Option α)
    (key : String) (f : α → JsValue) : List (String × JsValue) :=
  match o with
  | some x => setField requestBody key (f x)
  | none => requestBody

/-- Provider routing in `chatCompletion` (src/openrouter-api.ts:137-170):
a defined `provider` config takes priority; otherwise a defined, non-empty
legacy `providers` list yields `{order, allow_fallbacks: false}`; otherwise
no `provider` field is set. -/
def chatProviderField (params : ChatCompletionParams)
    (requestBody : List (String × JsValue)) : List (String × JsValue) :=
  match params.provider with
  | some pc => setField requestBody "provider" (providerConfigJson pc)
  | none =>
    match params.providers with
    | some ps =>
      if ps.length > 0 then
        setField requestBody "provider"
          (.obj [("order", .arr (ps.map .str)), ("allow_fallbacks", .bool false)])
      else requestBody
    | none => requestBody

/-- Model of `Object.assign(requestBody, params.additionalParams)`
(src/openrouter-api.ts:172-175 and 231-234): merge the extra entries last,
overwriting computed fields on key collision. -/
def assignExtra (extra : Option (List (String × JsValue)))
    (requestBody : List (String × JsValue)) : List (String × JsValue) :=
  match extra with
  | some kvs => kvs.foldl (fun acc kv => setField acc kv.1 kv.2) requestBody
  | none => requestBody

/-- The `requestBody` built by `chatCompletion`
(src/openrouter-api.ts:98-175), property by property in source order,
ending with the `Object.assign(requestBody, params.additionalParams)`
merge. -/
def buildChatRequestBody (params : ChatCompletionParams) : List (String × JsValue) :=
  let requestBody : List (String × JsValue) :=
    [("model", .str params.model),
     ("messages", .arr (params.messages.map messageJson)),
     ("transforms", .arr [])]
  let requestBody := setField requestBody "reasoning" (computedReasoning params.reasoning)
  let requestBody := optField requestBody params.include_reasoning "include_reasoning" JsValue.bool
  let requestBody := optField requestBody params.temperature "temperature" JsValue.num
  let requestBody := optField requestBody params.max_tokens "max_tokens" JsValue.num
  let requestBody := optField requestBody params.seed "seed" JsValue.num
  let requestBody := chatProviderField params requestBody
  assignExtra params.additionalParams requestBody

/-- The parameters of `OpenRouterAPIClient.textCompletion`
(src/openrouter-api.ts:198-206). -/
structure TextCompletionParams where
  model : String
  prompt : String
  max_tokens : Option Int := none
  temperature : Option Int := none
  seed : Option Int := none
  providers : Option (List String) := none
  additionalParams : Option (List (String × JsValue)) := none

/-- Provider routing in `textCompletion` (src/openrouter-api.ts:223-229):
only the legacy `providers` list is supported. -/
def textProviderField (params : TextCompletionParams)
    (requestBody : List (String × JsValue)) : List (String × JsValue) :=
  match params.providers with
  | some ps =>
    if ps.length > 0 then
      setField requestBody "provider"
        (.obj [("order", .arr (ps.map .str)), ("allow_fallbacks", .bool false)])
    else requestBody
  | none => requestBody

/-- The `requestBody` built by `textCompletion`
(src/openrouter-api.ts:207-234), property by property in source order. -/
def buildTextRequestBody (params : TextCompletionParams) : List (String × JsValue) :=
  let requestBody : List (String × JsValue) :=
    [("model", .str params.model),
     ("prompt", .str params.prompt),
     ("transforms", .arr [])]
  let requestBody := optField requestBody params.max_tokens "max_tokens" JsValue.num
  let requestBody := optField requestBody params.temperature "temperature" JsValue.num
  let requestBody := optField requestBody params.seed "seed" JsValue.num
  let requestBody := textProviderField params requestBody
  assignExtra params.additionalParams requestBody

/-- Effects of `chatCompletion` (src/openrouter-api.ts:86-196): it builds
the request body and immediately issues a single `POST /chat/completions`.
The source contains no rate-limit check and no sleep in this method. -/
def chatCompletionEffects (params : ChatCompletionParams) : List Effect :=
  [.httpPost "/chat/completions" (buildChatRequestBody params)]

/-- Effects of `textCompletion` (src/openrouter-api.ts:198-255): a single
`POST /completions`, likewise with no rate-limit check and no sleep. -/
def textCompletionEffects (params : TextCompletionParams) : List Effect :=
  [.httpPost "/completions" (buildTextRequestBody params)]

/-- Whether an effect is a sleep. -/
def Effect.isSleep : Effect → Bool
  | .sleep _ => true
  | _ => false

/-- Whether an effect is an HTTP request. -/
def Effect.isRequest : Effect → Bool
  | .httpGet _ => true
  | .httpPost _ _ => true
  | .sleep _ => false

/-! ## Heap model for `getRateLimit` (src/openrouter-api.ts:284-286)

JavaScript objects are heap references; `return { ...this.rateLimit }`
allocates a *fresh* object carrying a copy of the fields. The heap is a
list of `RateLimitState` objects addressed by index; the client's tracked
state lives at some address, and allocation appends. -/

abbrev RLHeap := List RateLimitState

/-- Read the object at an address. -/
def heapRead (h : RLHeap) (a : Nat) : Option RateLimitState :=
  h.get? a

/-- Overwrite the object at an address (a JS field mutation of that object). -/
def heapWrite (h : RLHeap) (a : Nat) (v : RateLimitState) : RLHeap :=
  h.set a v

/-- Source: `getRateLimit` (src/openrouter-api.ts:284-286): `{ ...this.rateLimit }`
allocates a fresh cell holding a copy of the client's state and returns its
address. (The `getD` default is never used when `clientAddr` is valid.) -/
def getRateLimit (h : RLHeap) (clientAddr : Nat) : Nat × RLHeap :=
  (h.length, h ++ [(heapRead h clientAddr).getD ⟨50, 0, 50⟩])

/-- The interceptor's success handler as a heap operation: it is the one
place that overwrites the client's tracked `rateLimit` object
(src/openrouter-api.ts:42-46). -/
def interceptorWriteRateLimit (h : RLHeap) (clientAddr : Nat)
    (headers : RateLimitHeaders) (now : Int) : RLHeap :=
  heapWrite h clientAddr (interceptorOnSuccess headers now)

/-! ## Concrete fixtures used by counterexamples and witnesses -/

/-- A short system message whose content estimates to 1 token. -/
def c2SystemMessage : ChatCompletionMessage := { role := .system, content := "sys." }

/-- The i-th user message; every content here is at most 4 characters, so
each estimates to 1 token. -/
def c2UserMessage (i : Nat) : ChatCompletionMessage :=
  { role := .user, content := "m" ++ toString i }

/-- The spec's context-windowing scenario: `[system, m1, ..., m100]`. -/
def c2Messages : List ChatCompletionMessage :=
  c2SystemMessage :: (List.range 100).map (fun i => c2UserMessage (i + 1))

/-- A conversation freshly created at clock reading 5 (ms). -/
def c3Conversation : Conversation :=
  { id := "conv-1", history := [], createdAt := 5, lastUpdatedAt := 5 }

/-- A message to append. -/
def c3Message : ConversationMessage := { role := .user, content := "Hello" }

/-- A one-model catalog entry. -/
def c6Model : OpenRouterModel :=
  { id := "openai/gpt-4", name := "GPT-4", context_length := 8192
    pricing := { prompt := "0.00003", completion := "0.00006", unit := 1 } }

/-- A catalog snapshot fetched at clock reading 0. -/
def c6Snapshot : CachedModelResponse := { data := [c6Model], timestamp := 0 }

/-- Rate-limit headers carried by a mocked successful response. -/
def c1Headers : RateLimitHeaders := { remaining := some 10, reset := some 30, limit := some 50 }

/-- A one-model list for the retry-schedule witness. -/
def c7Model : OpenRouterModel :=
  { id := "a/b", name := "AB", context_length := 4096
    pricing := { prompt := "0", completion := "0", unit := 1 } }

/-- Scripted attempt outcomes: the first two attempts fail, the third succeeds. -/
def c7Outcomes : Nat → Except String (List OpenRouterModel) :=
  fun i => if i < 2 then .error "network error" else .ok [c7Model]

/-- A rate-limit state that is exhausted until clock reading 5000. -/
def c4RateLimit : RateLimitState := { remaining := 0, reset := 5000, total := 50 }

/-- Minimal chat-completion parameters. -/
def c4ChatParams : ChatCompletionParams :=
  { model := "openai/gpt-4", messages := [{ role := .user, content := "Hello" }] }

/-- Minimal text-completion parameters. -/
def c4TextParams : TextCompletionParams := { model := "openai/gpt-4", prompt := "Hello" }

/-- A rate-limit state with quota left, so no pre-request wait fires. -/
def c5RateLimit : RateLimitState := { remaining := 50, reset := 0, total := 50 }

/-- Chat parameters whose `additionalParams` carries a `"reasoning"` key. -/
def c9OverrideParams : ChatCompletionParams :=
  { model := "openai/gpt-4", messages := [{ role := .user, content := "Hello" }]
    reasoning := some "high"
    additionalParams := some [("reasoning", .bool true)] }

/-- Chat parameters with `reasoning: 'high'` and no extra parameters. -/
def c9PlainParams : ChatCompletionParams :=
  { model := "openai/gpt-4", messages := [{ role := .user, content := "Hello" }]
    reasoning := some "high" }

/-- Headers observed by the interceptor in the heap-model witness. -/
def c10Headers : RateLimitHeaders := { remaining := some 42, reset := some 10, limit := some 50 }

/-! ## Theorems -/

/-- C1 (counterexample): a mocked upstream that returns 429 twice and then
succeeds. The claim says the single retried request's failure propagates
with no further retry; instead the re-issued request is dispatched through
the same interceptor, so the second 429 triggers another sleep-and-retry:
three attempts are consumed, the client sleeps 60000 ms (defaulted) and
then 5000 ms (from the `retry-after` header), and the call ultimately
succeeds rather than propagating the second failure. -/
theorem interceptor_retries_second_429 :
    runInterceptor [.failure 429 none, .failure 429 (some 5), .success c1Headers]
      = { sleeps := [60000, 5000], attempts := 3, outcome := .ok c1Headers }
    ∧ ∀ s, (runInterceptor [.failure 429 none, .failure 429 (some 5),
        .success c1Headers]).outcome ≠ .error s := by
  refine ⟨rfl, ?_⟩
  intro s
  simp [runInterceptor]

/-- C1 (amended): on each HTTP 429 the client sleeps for the provider's
`retry-after` value (60 s when the header is absent) and re-issues the same
request; the re-issued request passes through the same interceptor, so
*every* consecutive 429 triggers another sleep-and-retry (the recovery is
not single-shot), and a non-429 failure propagates to the caller
immediately, with no retry. -/
theorem interceptor_429_amended (ws : List (Option Int)) (headers : RateLimitHeaders)
    (status : Int) (ra : Option Int) (h : status ≠ 429) :
    runInterceptor (ws.map (fun r => .failure 429 r) ++ [.success headers])
      = { sleeps := ws.map (fun r => r.getD 60 * 1000), attempts := ws.length + 1
          outcome := .ok headers }
    ∧ runInterceptor (ws.map (fun r => .failure 429 r) ++ [.failure status ra])
      = { sleeps := ws.map (fun r => r.getD 60 * 1000), attempts := ws.length + 1
          outcome := .error status } := by
  induction ws with
  | nil => exact ⟨rfl, by simp [runInterceptor, h]⟩
  | cons w ws ih =>
    refine ⟨?_, ?_⟩ <;> simp [runInterceptor, ih.1, ih.2]

/-- C1 (witness for the amended theorem): two consecutive 429s followed by
a success are all retried through (sleeping 60000 ms then 5000 ms), while
the same two 429s followed by a 500 end in the 500 propagating. -/
theorem interceptor_429_amended_witness :
    runInterceptor [.failure 429 none, .failure 429 (some 5), .success c1Headers]
      = { sleeps := [60000, 5000], attempts := 3, outcome := .ok c1Headers }
    ∧ runInterceptor [.failure 429 none, .failure 429 (some 5), .failure 500 none]
      = { sleeps := [60000, 5000], attempts := 3, outcome := .error 500 } := by
  have h := interceptor_429_amended [none, some 5] c1Headers 500 none (by decide)
  exact ⟨h.1, h.2⟩

/-- C7: `fetchModels` retries on any exception using the fixed schedule
`RETRY_DELAYS = [1000, 2000, 4000]` ms — at most 3 retries, 4 total
attempts — sleeping `RETRY_DELAYS[i]` after failed attempt `i`, re-raising
the final failure once the schedule is exhausted; on success at attempt `j`
it returns the fetched entries paired with `timestamp = Date.now()` (the
clock reading at the success), having slept the first `j` delays. -/
theorem fetchModels_retry_schedule {E : Type} (outcomes : Nat → Except E (List OpenRouterModel))
    (t : Int) (e : Nat → E) (v : List OpenRouterModel) :
    ((∀ i, i ≤ 3 → outcomes i = .error (e i)) →
      fetchModels outcomes t = ([1000, 2000, 4000], .error (e 3)))
    ∧ (∀ j, j ≤ 3 → outcomes j = .ok v → (∀ i, i < j → outcomes i = .error (e i)) →
      fetchModels outcomes t = (RETRY_DELAYS.take j, .ok (v, t))) := by
  constructor
  · intro h
    simp [fetchModels, retryLoop, RETRY_DELAYS, Except.map,
      h 0 (by omega), h 1 (by omega), h 2 (by omega), h 3 (by omega)]
  · intro j hj hok hlt
    interval_cases j
    · simp [fetchModels, retryLoop, RETRY_DELAYS, Except.map, hok]
    · simp [fetchModels, retryLoop, RETRY_DELAYS, Except.map, hok, hlt 0 (by omega)]
    · simp [fetchModels, retryLoop, RETRY_DELAYS, Except.map, hok,
        hlt 0 (by omega), hlt 1 (by omega)]
    · simp [fetchModels, retryLoop, RETRY_DELAYS, Except.map, hok,
        hlt 0 (by omega), hlt 1 (by omega), hlt 2 (by omega)]

/-- C7 (witness): with attempts failing twice and succeeding on the third,
`fetchModels` sleeps 1000 ms then 2000 ms and returns the entries paired
with the success-time clock reading 99. -/
theorem fetchModels_retry_schedule_witness :
    fetchModels c7Outcomes 99 = ([1000, 2000], .ok ([c7Model], 99)) := by
  have h := (fetchModels_retry_schedule c7Outcomes 99 (fun _ => "network error") [c7Model]).2
    2 (by omega) rfl (by intro i hi; interval_cases i <;> rfl)
  simpa [RETRY_DELAYS] using h

/-- C4 (counterexample): with the tracked state exhausted
(`remaining = 0`, `reset = 5000`) at `now = 0`, the guard the claim
describes would sleep 5000 ms — and `fetchModels` does — but
`chatCompletion` and `textCompletion` contain no rate-limit check at all:
their effect traces hold no sleep, only the immediate POST. -/
theorem chatCompletion_no_pre_request_wait :
    rateLimitWait c4RateLimit 0 = some 5000
    ∧ (chatCompletionEffects c4ChatParams).filter Effect.isSleep = []
    ∧ (textCompletionEffects c4TextParams).filter Effect.isSleep = []
    ∧ (chatCompletionEffects c4ChatParams).head? =
        some (.httpPost "/chat/completions" (buildChatRequestBody c4ChatParams)) := by
  exact ⟨rfl, rfl, rfl, rfl⟩

/-- C4 (amended): when `remaining ≤ 0` and `now < resetAt`, the
pre-request sleep of `resetAt - now` is performed by `fetchModels` and
`fetchModelEndpoints` only; `chatCompletion` and `textCompletion` issue
their POST with no sleep. -/
theorem pre_request_wait_only_in_fetch_methods (rl : RateLimitState) (now : Int)
    (model : String) (p : ChatCompletionParams) (tp : TextCompletionParams)
    (h : rl.remaining ≤ 0 ∧ now < rl.reset) :
    fetchModelsFirstEffects rl now = [.sleep (rl.reset - now), .httpGet "/models"]
    ∧ (fetchModelEndpointsFirstEffects rl now model).1.head? = some (.sleep (rl.reset - now))
    ∧ (chatCompletionEffects p).filter Effect.isSleep = []
    ∧ (textCompletionEffects tp).filter Effect.isSleep = [] := by
  have hw : rateLimitWait rl now = some (rl.reset - now) := by
    unfold rateLimitWait
    rw [if_pos h]
  refine ⟨?_, ?_, rfl, rfl⟩
  · simp [fetchModelsFirstEffects, waitEffects, hw]
  · unfold fetchModelEndpointsFirstEffects
    cases hc : fetchModelEndpointsCheck model with
    | error msg => simp [waitEffects, hw]
    | ok ab => cases ab with
      | mk a b => simp [waitEffects, hw]

/-- C4 (witness for the amended theorem): with the exhausted state
`c4RateLimit` at `now = 0`, `fetchModels` sleeps 5000 ms before its GET,
`fetchModelEndpoints "a/b"` starts with the same sleep, and the two
completion methods sleep nowhere. -/
theorem pre_request_wait_witness :
    fetchModelsFirstEffects c4RateLimit 0 = [.sleep 5000, .httpGet "/models"]
    ∧ (fetchModelEndpointsFirstEffects c4RateLimit 0 "a/b").1.head? = some (.sleep 5000)
    ∧ (chatCompletionEffects c4ChatParams).filter Effect.isSleep = []
    ∧ (textCompletionEffects c4TextParams).filter Effect.isSleep = [] := by
  exact pre_request_wait_only_in_fetch_methods c4RateLimit 0 "a/b" c4ChatParams
    c4TextParams (by constructor <;> decide)

/-- C8: for every model string `s`, `parse(s).fullModel == s`; if `s` ends
with `":floor"` or `":nitro"` then `baseModel` is `s` with that suffix
stripped and `suffix` is the corresponding enum value; otherwise
`baseModel == fullModel` and `suffix` is unset. Stated as: the
source-derived `parseModel` coincides with `parseModelSpec`, the function
written from the specification's words. -/
theorem parseModel_matches_spec (s : String) : parseModel s = parseModelSpec s := by
  have hf : (":" ++ ModelSuffix.str .floor) = ":floor" := rfl
  have hn : (":" ++ ModelSuffix.str .nitro) = ":nitro" := rfl
  have lf : (":floor" : String).length = 6 := rfl
  have ln : (":nitro" : String).length = 6 := rfl
  by_cases h1 : s.endsWith ":floor" = true <;> by_cases h2 : s.endsWith ":nitro" = true <;>
    simp [parseModel, parseModelGo, parseModelSpec, hf, hn, lf, ln, h1, h2]

/-- C2 (failing input): with messages `[system, m1, ..., m100]`, every
content estimating to 1 token, and a budget of 3 tokens — exactly enough
for the system message plus the last two messages — `truncateMessagesToFit`
returns `[m99, m100, system]`: the backward walk `unshift`s the recent
messages *in front of* the already-pushed system message, so the system
message ends up last, contradicting the claimed `[system, m99, m100]` and
the source's own comment "Always include system message first if present". -/
theorem truncate_places_system_message_last :
    truncateMessagesToFit c2Messages 3 = [c2UserMessage 99, c2UserMessage 100, c2SystemMessage]
    ∧ truncateMessagesToFit c2Messages 3 ≠ [c2SystemMessage, c2UserMessage 99, c2UserMessage 100] := by
  refine ⟨rfl, ?_⟩
  decide

/-- C3 (counterexample): two appends performed in immediate succession can
fall within the same millisecond, in which case `new Date().toISOString()`
returns the same string for both and `lastUpdatedAt` does not strictly
increase: appending twice to `c3Conversation` at clock reading 5 leaves
`lastUpdatedAt = 5` before and after the second append, and `¬ (5 > 5)`. -/
theorem append_same_millisecond_not_strict :
    (getConversation (addMessageToConversation [c3Conversation] "conv-1" c3Message 5).2
        "conv-1").map Conversation.lastUpdatedAt = some 5
    ∧ ((addMessageToConversation (addMessageToConversation [c3Conversation] "conv-1" c3Message 5).2
        "conv-1" c3Message 5).1.map Conversation.lastUpdatedAt = some 5)
    ∧ ¬ (5 : Int) > 5 := by
  refine ⟨rfl, rfl, by decide⟩

/-- C3 (amended): every successful `append` sets `lastUpdatedAt` to the
clock reading at the append, so along a non-decreasing wall clock
`lastUpdatedAt_after ≥ lastUpdatedAt_before`, with equality exactly when
the two clock readings fall in the same millisecond. -/
theorem append_lastUpdatedAt_monotone (st : ConversationStore) (id : String)
    (message : ConversationMessage) (now : Int) (c c' : Conversation)
    (hget : getConversation st id = some c)
    (hclock : c.lastUpdatedAt ≤ now)
    (happ : (addMessageToConversation st id message now).1 = some c') :
    c'.lastUpdatedAt = now ∧ c.lastUpdatedAt ≤ c'.lastUpdatedAt := by
  unfold getConversation at hget
  unfold addMessageToConversation at happ
  rw [hget] at happ
  simp only [Option.some.injEq] at happ
  subst happ
  exact ⟨rfl, hclock⟩

/-- C3 (witness for the amended theorem): appending to `c3Conversation`
(last updated at 5) at clock reading 9 yields `lastUpdatedAt = 9 ≥ 5`. -/
theorem append_lastUpdatedAt_monotone_witness :
    ∃ c' : Conversation,
      (addMessageToConversation [c3Conversation] "conv-1" c3Message 9).1 = some c'
      ∧ c'.lastUpdatedAt = 9 ∧ c3Conversation.lastUpdatedAt ≤ c'.lastUpdatedAt := by
  refine ⟨{ c3Conversation with history := [c3Message], lastUpdatedAt := 9 }, rfl, ?_⟩
  exact append_lastUpdatedAt_monotone [c3Conversation] "conv-1" c3Message 9
    c3Conversation _ rfl (by decide) rfl

/-- C6: a stored snapshot `s` is returned by `getCachedModels` when
`now - s.timestamp ≤ 3600000` ms (= 3600 s) and treated as absent when
`now - s.timestamp > 3600000` ms or when nothing is stored; `validateModel`
and `getModelInfo` report `false`/absent whenever there is no valid
snapshot; `clearCache` forces the next `getCachedModels` to report absent
regardless of age. -/
theorem modelCache_ttl (s : CachedModelResponse) (st : ModelCacheState)
    (now : Int) (model : String) :
    (now - s.timestamp ≤ 3600000 → getCachedModels (some s) now = some s)
    ∧ (now - s.timestamp > 3600000 → getCachedModels (some s) now = none)
    ∧ getCachedModels none now = none
    ∧ (getCachedModels st now = none →
        validateModel st now model = false ∧ getModelInfo st now model = none)
    ∧ getCachedModels (clearCache st) now = none := by
  refine ⟨?_, ?_, ?_, ?_, ?_⟩
  · intro h
    simp [getCachedModels, validateCache, cacheExpiry, h]
  · intro h
    simp [getCachedModels, validateCache, cacheExpiry]
    omega
  · simp [getCachedModels, validateCache]
  · intro h
    constructor
    · simp [validateModel, h]
    · simp [getModelInfo, h]
  · simp [clearCache, getCachedModels, validateCache]

/-- C6 (witness): with `c6Snapshot` (fetched at 0), `getCachedModels` at
`now = 3600000` still returns it, at `now = 3600001` reports absent, and
after `clearCache` reports absent; with no valid snapshot, `validateModel`
is false and `getModelInfo` is absent. -/
theorem modelCache_ttl_witness :
    getCachedModels (some c6Snapshot) 3600000 = some c6Snapshot
    ∧ getCachedModels (some c6Snapshot) 3600001 = none
    ∧ validateModel (some c6Snapshot) 3600001 "openai/gpt-4" = false
    ∧ getModelInfo (some c6Snapshot) 3600001 "openai/gpt-4" = none
    ∧ getCachedModels (clearCache (some c6Snapshot)) 3600000 = none := by
  have h1 := (modelCache_ttl c6Snapshot (some c6Snapshot) 3600000 "openai/gpt-4").1 (by decide)
  have h2 := (modelCache_ttl c6Snapshot (some c6Snapshot) 3600001 "openai/gpt-4").2.1 (by decide)
  have h4 := (modelCache_ttl c6Snapshot (some c6Snapshot) 3600001 "openai/gpt-4").2.2.2.1 h2
  have h5 := (modelCache_ttl c6Snapshot (some c6Snapshot) 3600000 "openai/gpt-4").2.2.2.2
  exact ⟨h1, h2, h4.1, h4.2, h5⟩

/-! ### Helper lemmas about JS-object field update and lookup -/

theorem lookupField_cons (kv : String × JsValue) (tl : List (String × JsValue)) (k : String) :
    lookupField (kv :: tl) k = if kv.1 = k then some kv.2 else lookupField tl k := by
  by_cases h : kv.1 = k
  · simp [lookupField, h]
  · simp [lookupField, h]

theorem setField_cons (kv : String × JsValue) (tl : List (String × JsValue))
    (k : String) (v : JsValue) :
    setField (kv :: tl) k v =
      if kv.1 = k then (k, v) :: tl.map (fun p => if p.1 = k then (k, v) else p)
      else kv :: setField tl k v := by
  by_cases h : kv.1 = k
  · simp [setField, h]
  · cases ht : tl.any (fun p => p.1 = k) with
    | true => simp [setField, h, ht]
    | false => simp [setField, h, ht]

theorem lookupField_setField_self (b : List (String × JsValue)) (k : String) (v : JsValue) :
    lookupField (setField b k v) k = some v := by
  induction b with
  | nil => simp [setField, lookupField]
  | cons kv tl ih =>
    rw [setField_cons]
    by_cases h : kv.1 = k
    · rw [if_pos h, lookupField_cons]
      simp
    · rw [if_neg h, lookupField_cons, if_neg h]
      exact ih

theorem lookupField_map_overwrite (tl : List (String × JsValue)) (key k : String)
    (v : JsValue) (h : key ≠ k) :
    lookupField (tl.map (fun p => if p.1 = key then (key, v) else p)) k = lookupField tl k := by
  induction tl with
  | nil => rfl
  | cons p tl ih =>
    by_cases hp : p.1 = key
    · simp only [List.map_cons, if_pos hp, lookupField_cons]
      rw [if_neg (by simpa using h), if_neg (by rw [hp]; exact h)]
      exact ih
    · simp only [List.map_cons, if_neg hp, lookupField_cons]
      by_cases hk : p.1 = k
      · simp [hk]
      · simp [hk, ih]

theorem lookupField_setField_ne (b : List (String × JsValue)) (key k : String)
    (v : JsValue) (h : key ≠ k) :
    lookupField (setField b key v) k = lookupField b k := by
  induction b with
  | nil => simp [setField, lookupField_cons, lookupField, h]
  | cons kv tl ih =>
    rw [setField_cons]
    by_cases hk : kv.1 = key
    · rw [if_pos hk, lookupField_cons, lookupField_cons]
      rw [if_neg (by simpa using h), if_neg (by rw [hk]; exact h)]
      exact lookupField_map_overwrite tl key k v h
    · rw [if_neg hk, lookupField_cons, lookupField_cons]
      by_cases hkk : kv.1 = k
      · simp [hkk]
      · simp [hkk, ih]

theorem lookupField_foldl_setField (extra : List (String × JsValue))
    (b : List (String × JsValue)) (k : String) (h : ∀ kv ∈ extra, kv.1 ≠ k) :
    lookupField (extra.foldl (fun acc kv => setField acc kv.1 kv.2) b) k = lookupField b k := by
  induction extra generalizing b with
  | nil => rfl
  | cons e tl ih =>
    rw [List.foldl_cons, ih _ (fun kv hkv => h kv (List.mem_cons_of_mem e hkv))]
    exact lookupField_setField_ne b e.1 k e.2 (h e (List.mem_cons_self e tl))

theorem lookupField_optField {α : Type} (b : List (String × JsValue)) (o : Option α)
    (key : String) (f : α → JsValue) (k : String) (h : key ≠ k) :
    lookupField (optField b o key f) k = lookupField b k := by
  cases o with
  | none => rfl
  | some x => exact lookupField_setField_ne b key k (f x) h

theorem lookupField_chatProviderField (p : ChatCompletionParams)
    (b : List (String × JsValue)) (k : String) (h : ("provider" : String) ≠ k) :
    lookupField (chatProviderField p b) k = lookupField b k := by
  unfold chatProviderField
  cases p.provider with
  | some pc => exact lookupField_setField_ne b "provider" k (providerConfigJson pc) h
  | none =>
    cases p.providers with
    | none => rfl
    | some ps =>
      dsimp only
      by_cases hl : ps.length > 0
      · rw [if_pos hl]
        exact lookupField_setField_ne b "provider" k _ h
      · rw [if_neg hl]

theorem lookupField_assignExtra (extra : Option (List (String × JsValue)))
    (b : List (String × JsValue)) (k : String) (h : ∀ kv ∈ extra.getD [], kv.1 ≠ k) :
    lookupField (assignExtra extra b) k = lookupField b k := by
  cases extra with
  | none => rfl
  | some kvs => exact lookupField_foldl_setField kvs b k (by simpa using h)

/-- When an index's `getD "" ` value is non-empty the index is in bounds and
`get?` returns exactly that value. -/
theorem get?_of_getD_ne {l : List String} {i : Nat} (h : l.getD i "" ≠ "") :
    l.get? i = some (l.getD i "") := by
  cases hg : l[i]? with
  | none =>
    exfalso
    apply h
    simp [List.getD_eq_getD_get?, List.get?_eq_getElem?, hg]
  | some x =>
    simp [List.getD_eq_getD_get?, List.get?_eq_getElem?, hg]

/-- Frame lemma for the heap model: writes to an address other than `a`
never change what is read at `a`. -/
theorem heapRead_foldl_write_ne (ws : List RateLimitState) (hh : RLHeap) (c a : Nat)
    (hne : c ≠ a) :
    heapRead (ws.foldl (fun x v => heapWrite x c v) hh) a = heapRead hh a := by
  induction ws generalizing hh with
  | nil => rfl
  | cons w ws ih =>
    rw [List.foldl_cons, ih]
    simp [heapRead, heapWrite, List.getElem?_set_ne hne]

/-! ### Claim theorems (continued) -/

/-- C5 (counterexample): `"a/b/c"` is not exactly of the form `author/slug`
(it has an extra slash-separated segment), yet `fetchModelEndpoints` does
not fail fast: `split('/', 2)` silently keeps the first two fields, the
check passes with `author = "a"`, `slug = "b"`, and the request
`GET /models/a/b/endpoints` is issued. -/
theorem fetchModelEndpoints_accepts_extra_segments :
    fetchModelEndpointsCheck "a/b/c" = .ok ("a", "b")
    ∧ fetchModelEndpointsFirstEffects c5RateLimit 0 "a/b/c"
        = ([.httpGet "/models/a/b/endpoints"], none) :=
  ⟨rfl, rfl⟩

/-- C5 (amended): `fetchModelEndpoints` fails fast, before issuing any HTTP
request, exactly when the first or second `'/'`-separated field of the
input is missing or empty (covering: no slash, empty author, empty slug);
any input whose first two fields are non-empty — including inputs with
extra segments such as `a/b/c` — passes validation with `author`/`slug`
the first two fields and proceeds to issue the endpoints request. -/
theorem fetchModelEndpoints_validation (model a b : String) (rl : RateLimitState) (now : Int) :
    (fetchModelEndpointsCheck model = .ok (a, b) ↔
      ((jsSplit model '/').get? 0 = some a ∧ (jsSplit model '/').get? 1 = some b
        ∧ a ≠ "" ∧ b ≠ ""))
    ∧ ((∃ msg, fetchModelEndpointsCheck model = .error msg) →
        ∀ e ∈ (fetchModelEndpointsFirstEffects rl now model).1, e.isRequest = false)
    ∧ (fetchModelEndpointsCheck model = .ok (a, b) →
        Effect.httpGet ("/models/" ++ a ++ "/" ++ b ++ "/endpoints")
          ∈ (fetchModelEndpointsFirstEffects rl now model).1) := by
  have hdef : fetchModelEndpointsCheck model =
      if (jsSplit model '/').getD 0 "" = "" ∨ (jsSplit model '/').getD 1 "" = "" then
        .error ("Invalid model format. Expected author/slug, got " ++ model)
      else .ok ((jsSplit model '/').getD 0 "", (jsSplit model '/').getD 1 "") := rfl
  refine ⟨?_, ?_, ?_⟩
  · constructor
    · intro h
      rw [hdef] at h
      by_cases hc : (jsSplit model '/').getD 0 "" = "" ∨ (jsSplit model '/').getD 1 "" = ""
      · rw [if_pos hc] at h
        exact Except.noConfusion h
      · rw [if_neg hc] at h
        push_neg at hc
        obtain ⟨h0, h1⟩ := hc
        simp only [Except.ok.injEq, Prod.mk.injEq] at h
        obtain ⟨ha, hb⟩ := h
        refine ⟨?_, ?_, ?_, ?_⟩
        · rw [← ha]
          exact get?_of_getD_ne h0
        · rw [← hb]
          exact get?_of_getD_ne h1
        · rw [← ha]
          exact h0
        · rw [← hb]
          exact h1
    · rintro ⟨hg0, hg1, ha, hb⟩
      have hd0 : (jsSplit model '/').getD 0 "" = a := by
        rw [List.get?_eq_getElem?] at hg0
        simp [List.getD_eq_getD_get?, List.get?_eq_getElem?, hg0]
      have hd1 : (jsSplit model '/').getD 1 "" = b := by
        rw [List.get?_eq_getElem?] at hg1
        simp [List.getD_eq_getD_get?, List.get?_eq_getElem?, hg1]
      rw [hdef, if_neg (by rw [hd0, hd1]; push_neg; exact ⟨ha, hb⟩), hd0, hd1]
  · rintro ⟨msg, hmsg⟩ e he
    unfold fetchModelEndpointsFirstEffects at he
    rw [hmsg] at he
    simp only at he
    unfold waitEffects at he
    cases hr : rateLimitWait rl now with
    | none =>
      rw [hr] at he
      simp at he
    | some w =>
      rw [hr] at he
      simp at he
      subst he
      rfl
  · intro h
    unfold fetchModelEndpointsFirstEffects
    rw [h]
    exact List.mem_append_of_mem_right _ (by simp)

/-- C5 (witness for the amended theorem): `"openai/gpt-4"` passes validation
and the endpoints GET is issued; `"no-slash"`, with no second field,
fails fast with no HTTP request among its effects. -/
theorem fetchModelEndpoints_validation_witness :
    fetchModelEndpointsCheck "openai/gpt-4" = .ok ("openai", "gpt-4")
    ∧ (∀ e ∈ (fetchModelEndpointsFirstEffects c5RateLimit 0 "no-slash").1,
        e.isRequest = false)
    ∧ Effect.httpGet "/models/openai/gpt-4/endpoints"
        ∈ (fetchModelEndpointsFirstEffects c5RateLimit 0 "openai/gpt-4").1 := by
  have hok : fetchModelEndpointsCheck "openai/gpt-4" = .ok ("openai", "gpt-4") :=
    (fetchModelEndpoints_validation "openai/gpt-4" "openai" "gpt-4" c5RateLimit 0).1.mpr
      ⟨rfl, rfl, by decide, by decide⟩
  refine ⟨hok, ?_, ?_⟩
  · exact (fetchModelEndpoints_validation "no-slash" "" "" c5RateLimit 0).2.1
      ⟨"Invalid model format. Expected author/slug, got no-slash", rfl⟩
  · exact (fetchModelEndpoints_validation "openai/gpt-4" "openai" "gpt-4" c5RateLimit 0).2.2 hok

/-- C9 (counterexample): `additionalParams` is merged into the request body
last via `Object.assign`, so an entry with key `"reasoning"` overwrites the
computed reasoning object: with `c9OverrideParams` the final body's
`reasoning` field is the primitive `true`, not a reasoning object — the
body does not "always contain a reasoning object". -/
theorem additionalParams_overrides_reasoning :
    lookupField (buildChatRequestBody c9OverrideParams) "reasoning" = some (.bool true)
    ∧ ∀ fields, JsValue.bool true ≠ JsValue.obj fields := by
  refine ⟨rfl, ?_⟩
  intro fields hcontra
  cases hcontra

/-- C9 (amended): whenever `additionalParams` carries no `"reasoning"` or
`"include_reasoning"` key, the built request body maps `"reasoning"` to the
computed reasoning object — `{enabled: false}` when `params.reasoning` is
`'none'`; `{effort: 'medium', enabled: true}` when it is unspecified;
`{effort: r, enabled: true}` for a specified `r` among
`low`/`medium`/`high` (with `'medium'` as fallback) — and maps
`"include_reasoning"` to the flag exactly when it was provided. -/
theorem chatCompletion_reasoning_body (p : ChatCompletionParams)
    (hextra : ∀ kv ∈ p.additionalParams.getD [],
      kv.1 ≠ "reasoning" ∧ kv.1 ≠ "include_reasoning") :
    lookupField (buildChatRequestBody p) "reasoning" = some (computedReasoning p.reasoning)
    ∧ (p.reasoning = some "none" →
        computedReasoning p.reasoning = .obj [("enabled", .bool false)])
    ∧ (p.reasoning = none →
        computedReasoning p.reasoning
          = .obj [("effort", .str "medium"), ("enabled", .bool true)])
    ∧ (∀ r, p.reasoning = some r → r ≠ "none" →
        computedReasoning p.reasoning
          = .obj [("effort",
              .str (if r ∈ (["low", "medium", "high"] : List String) then r else "medium")),
              ("enabled", .bool true)])
    ∧ lookupField (buildChatRequestBody p) "include_reasoning"
        = p.include_reasoning.map JsValue.bool := by
  refine ⟨?_, ?_, ?_, ?_, ?_⟩
  · unfold buildChatRequestBody
    rw [lookupField_assignExtra _ _ _ (fun kv hkv => (hextra kv hkv).1),
        lookupField_chatProviderField _ _ _ (by decide),
        lookupField_optField _ _ _ _ _ (by decide),
        lookupField_optField _ _ _ _ _ (by decide),
        lookupField_optField _ _ _ _ _ (by decide),
        lookupField_optField _ _ _ _ _ (by decide),
        lookupField_setField_self]
  · intro h
    simp [computedReasoning, h]
  · intro h
    simp [computedReasoning, h]
  · intro r hr hrn
    have hne : ¬(some r = some "none") := by simp [hrn]
    simp only [computedReasoning, hr, if_neg hne]
    by_cases hc : r ∈ (["low", "medium", "high"] : List String)
    · have hcon : (["low", "medium", "high"] : List String).contains r = true := by
        simpa using hc
      simp [hcon, hc]
    · have hcon : (["low", "medium", "high"] : List String).contains r = false := by
        simpa using hc
      simp [hcon, hc]
  · unfold buildChatRequestBody
    rw [lookupField_assignExtra _ _ _ (fun kv hkv => (hextra kv hkv).2),
        lookupField_chatProviderField _ _ _ (by decide),
        lookupField_optField _ _ _ _ _ (by decide),
        lookupField_optField _ _ _ _ _ (by decide),
        lookupField_optField _ _ _ _ _ (by decide)]
    cases hir : p.include_reasoning with
    | none =>
      simp only [optField]
      rw [lookupField_setField_ne _ _ _ _ (by decide)]
      rfl
    | some ir =>
      simp only [optField]
      rw [lookupField_setField_self]
      rfl

/-- C9 (witness for the amended theorem): with `reasoning: 'high'` and no
extra parameters, the body's `reasoning` field is
`{effort: 'high', enabled: true}` and no `include_reasoning` field is set. -/
theorem chatCompletion_reasoning_body_witness :
    lookupField (buildChatRequestBody c9PlainParams) "reasoning"
      = some (.obj [("effort", .str "high"), ("enabled", .bool true)])
    ∧ lookupField (buildChatRequestBody c9PlainParams) "include_reasoning" = none := by
  have h := chatCompletion_reasoning_body c9PlainParams
    (by intro kv hkv; simp [c9PlainParams] at hkv)
  refine ⟨?_, ?_⟩
  · rw [h.1, h.2.2.2.1 "high" rfl (by decide)]
    rfl
  · simpa [c9PlainParams] using h.2.2.2.2

/-- C10: `getRateLimit` returns `{ ...this.rateLimit }` — a freshly
allocated copy. In the heap model: the returned address differs from the
client's, the allocation leaves the client's cell unchanged, any sequence
of writes through the returned address leaves the client's cell unchanged,
and the internal cell is (re)written by the interceptor's success handler,
the one mutator of the tracked state. -/
theorem getRateLimit_returns_copy (h : RLHeap) (a : Nat) (ha : a < h.length)
    (ws : List RateLimitState) (headers : RateLimitHeaders) (now : Int) :
    (getRateLimit h a).1 ≠ a
    ∧ heapRead (getRateLimit h a).2 a = heapRead h a
    ∧ heapRead (ws.foldl (fun hh v => heapWrite hh (getRateLimit h a).1 v)
        (getRateLimit h a).2) a = heapRead h a
    ∧ heapRead (interceptorWriteRateLimit h a headers now) a
        = some (interceptorOnSuccess headers now) := by
  have hne : (getRateLimit h a).1 ≠ a := by
    simp only [getRateLimit]
    omega
  have hread : heapRead (getRateLimit h a).2 a = heapRead h a := by
    simp only [getRateLimit, heapRead, List.get?_eq_getElem?]
    exact List.getElem?_append_left ha
  refine ⟨hne, hread, ?_, ?_⟩
  · rw [heapRead_foldl_write_ne _ _ _ _ hne]
    exact hread
  · simp only [interceptorWriteRateLimit, heapWrite, heapRead, List.get?_eq_getElem?]
    exact List.getElem?_set_eq_of_lt _ ha

/-- C10 (witness): on a one-cell heap holding the client state at address
0, `getRateLimit` allocates address 1; writing through it leaves the
client's cell untouched, while the interceptor write replaces it. -/
theorem getRateLimit_returns_copy_witness :
    (getRateLimit [⟨1, 2, 3⟩] 0).1 ≠ 0
    ∧ heapRead (getRateLimit [⟨1, 2, 3⟩] 0).2 0 = heapRead [⟨1, 2, 3⟩] 0
    ∧ heapRead ([⟨9, 9, 9⟩].foldl (fun hh v => heapWrite hh (getRateLimit [⟨1, 2, 3⟩] 0).1 v)
        (getRateLimit [⟨1, 2, 3⟩] 0).2) 0 = heapRead [⟨1, 2, 3⟩] 0
    ∧ heapRead (interceptorWriteRateLimit [⟨1, 2, 3⟩] 0 c10Headers 0) 0
        = some (interceptorOnSuccess c10Headers 0) :=
  getRateLimit_returns_copy [⟨1, 2, 3⟩] 0 (by decide) [⟨9, 9, 9⟩] c10Headers 0

end OpenRouterAI
